import Mathlib

/-!
Verification development for the resume-classification system: a shallow
embedding of its scoring, normalization, extraction, filter/query and HTTP
surface, with theorems settling the specified properties.

The repository sources available are the frontend React components
(App.tsx, ResumeList.tsx and a newer revision of the candidate list) and the
backend API documentation; the backend implementation itself (scorer,
normalizer, extractor, query engine, endpoint views) is not among them, so
those components are modelled from the specification text, as marked on each
definition below.
-/

namespace ResumeApp

/-! ## String utilities

The embedded code matches skills and keywords case-insensitively; these
helpers give executable lowercase folding and substring search over the
character list underlying a string. -/

/-- Lowercase every character of a string. -/
def lowerStr (s : String) : String := ⟨s.data.map Char.toLower⟩

/-- `matchHere needle hay` is true when `needle` occurs at the head of `hay`. -/
def matchHere : List Char → List Char → Bool
  | [], _ => true
  | _ :: _, [] => false
  | a :: as, b :: bs => a == b && matchHere as bs

/-- `occursIn needle hay` is true when `needle` occurs contiguously anywhere in `hay`. -/
def occursIn (needle : List Char) : List Char → Bool
  | [] => matchHere needle []
  | h :: t => matchHere needle (h :: t) || occursIn needle t

/-- Case-insensitive substring test: does `needle` occur in `hay`, ignoring case? -/
def containsCI (hay needle : String) : Bool :=
  occursIn (lowerStr needle).data (lowerStr hay).data

/-! ## Enumerations (spec section 3) -/

/-- The fixed seniority enumeration Junior, Mid, Senior, Lead, Principal. -/
inductive Seniority where
  | junior
  | mid
  | senior
  | lead
  | principal
deriving DecidableEq

/-- The fixed qualification enumeration High School, Bachelors, Masters, PhD,
Diploma, Certification. -/
inductive Qualification where
  | highSchool
  | bachelors
  | masters
  | phd
  | diploma
  | certification
deriving DecidableEq

/-- The canonical display string of a seniority value, as the documentation
shows it (Junior, Mid, Senior, Lead, Principal). -/
def Seniority.canonical : Seniority → String
  | .junior => "Junior"
  | .mid => "Mid"
  | .senior => "Senior"
  | .lead => "Lead"
  | .principal => "Principal"

/-- The canonical display string of a qualification value, as the
documentation shows it. -/
def Qualification.canonical : Qualification → String
  | .highSchool => "High School"
  | .bachelors => "Bachelors"
  | .masters => "Masters"
  | .phd => "PhD"
  | .diploma => "Diploma"
  | .certification => "Certification"

/-- The list of all canonical seniority strings. -/
def seniorityCanonicals : List String :=
  ["Junior", "Mid", "Senior", "Lead", "Principal"]

/-- The list of all canonical qualification strings. -/
def qualificationCanonicals : List String :=
  ["High School", "Bachelors", "Masters", "PhD", "Diploma", "Certification"]

/-! ## Scorer -/

/-- Modelled from the spec: the backend scorer implementation is not among the
sources; spec section 4.3 and the API documentation fix the frontend skill
set React, Angular, Vue, JavaScript, TypeScript, HTML, CSS and UI/UX tools.
Stored lowercase for the case-insensitive membership test. -/
def frontendSkills : List String :=
  ["react", "angular", "vue", "javascript", "typescript", "html", "css",
   "figma", "sass", "tailwind"]

/-- Modelled from the spec: the backend scorer implementation is not among the
sources; spec section 4.3 and the API documentation fix the backend skill set
Python, Django, Node.js, Java, databases, cloud services and API-related
terms. Stored lowercase for the case-insensitive membership test. -/
def backendSkills : List String :=
  ["python", "django", "node.js", "java", "sql", "postgresql", "mongodb",
   "aws", "azure", "docker", "api", "rest"]

/-- Modelled from the spec: the seniority bonus added to both scores
(Junior +5, Mid +10, Senior +20, Lead/Principal +30). -/
def seniorityBonus : Seniority → Nat
  | .junior => 5
  | .mid => 10
  | .senior => 20
  | .lead => 30
  | .principal => 30

/-- Modelled from the spec: +10 per skill whose lowercase form is a member of
the given keyword set. -/
def skillPoints (keywords : List String) (skills : List String) : Nat :=
  10 * (skills.filter (fun s => keywords.contains (lowerStr s))).length

/-- Clamp a score to the range 0 to 100 (the lower bound is automatic on Nat). -/
def clamp100 (n : Nat) : Nat := min n 100

/-- Modelled from the spec: the scorer. The backend implementation is not
among the sources; spec section 4.3 gives the algorithm: +10 per frontend
skill match to the frontend score, +10 per backend skill match to the backend
score (a skill may contribute to both), plus the seniority bonus to both,
each result clamped to 0..100. -/
def score (skills : List String) (sen : Seniority) : Nat × Nat :=
  (clamp100 (skillPoints frontendSkills skills + seniorityBonus sen),
   clamp100 (skillPoints backendSkills skills + seniorityBonus sen))

/-! ## Normalizer -/

/-- The attribute record produced by extraction, before and after
normalization: name, ordered skills, raw seniority and qualification strings. -/
structure CandidateAttributes where
  name : String
  skills : List String
  seniority : String
  qualifications : String
deriving DecidableEq

/-- Modelled from the spec: the backend normalizer implementation is not among
the sources; spec section 4.2 maps free-form seniority strings (varying case,
synonyms) onto the fixed enumeration, with unrecognized values going to the
conservative default Junior. -/
def normalizeSeniority (s : String) : Seniority :=
  match lowerStr s with
  | "junior" => .junior
  | "jr" => .junior
  | "mid" => .mid
  | "mid-level" => .mid
  | "intermediate" => .mid
  | "senior" => .senior
  | "sr" => .senior
  | "lead" => .lead
  | "principal" => .principal
  | _ => .junior

/-- Modelled from the spec: the backend normalizer implementation is not among
the sources; spec section 4.2 maps free-form qualification strings (varying
case, synonyms such as BSc for Bachelors) onto the fixed enumeration, with
unrecognized values going to the conservative lowest tier High School. -/
def normalizeQualification (s : String) : Qualification :=
  match lowerStr s with
  | "high school" => .highSchool
  | "high_school" => .highSchool
  | "bachelors" => .bachelors
  | "bachelor" => .bachelors
  | "bsc" => .bachelors
  | "b.sc" => .bachelors
  | "masters" => .masters
  | "master" => .masters
  | "msc" => .masters
  | "phd" => .phd
  | "ph.d" => .phd
  | "doctorate" => .phd
  | "diploma" => .diploma
  | "certification" => .certification
  | "certificate" => .certification
  | _ => .highSchool

/-- Modelled from the spec: the normalizer, a pure total function that leaves
name and skills untouched (no deduplication, order preserved) and rewrites
the seniority and qualification strings to the canonical enumeration forms. -/
def normalize (raw : CandidateAttributes) : CandidateAttributes :=
  { raw with
    seniority := (normalizeSeniority raw.seniority).canonical,
    qualifications := (normalizeQualification raw.qualifications).canonical }

/-! ## Normalizer helper lemmas -/

theorem normalizeSeniority_canonical (e : Seniority) :
    normalizeSeniority e.canonical = e := by
  cases e <;> decide

theorem normalizeQualification_canonical (q : Qualification) :
    normalizeQualification q.canonical = q := by
  cases q <;> decide

theorem canonical_seniority_mem (e : Seniority) :
    e.canonical ∈ seniorityCanonicals := by
  cases e <;> decide

theorem canonical_qualification_mem (q : Qualification) :
    q.canonical ∈ qualificationCanonicals := by
  cases q <;> decide

/-! ## Candidate store and filter/query engine -/

/-- The persisted candidate entity (spec section 3, ResumeList.tsx Candidate
interface): identifier, name, ordered skills, the two derived scores, the
canonical seniority and qualification strings and the creation timestamp,
kept as a number for ordering. -/
structure CandidateProfile where
  id : Nat
  name : String
  skills : List String
  fe_score : Nat
  be_score : Nat
  seniority : String
  qualifications : String
  created_at : Nat
deriving DecidableEq

/-- The transient filter request (spec section 3, ResumeList.tsx
FilterSettings): required skills, optional exact seniority and qualification,
optional minimum score thresholds; an absent field means no constraint. -/
structure FilterSettings where
  skills : List String
  seniorityLevel : Option String
  qualifications : Option String
  fe_score : Option Nat
  be_score : Option Nat
deriving DecidableEq

/-- The filter settings with every constraint absent. -/
def noFilters : FilterSettings :=
  { skills := [], seniorityLevel := none, qualifications := none,
    fe_score := none, be_score := none }

/-- Modelled from the spec: the backend filter predicate is not among the
sources; spec section 4.4 and the documented filter behavior combine, with
AND, a skills constraint (the candidate has every filter skill,
case-insensitive partial match), exact seniority and qualification matches
when present, and minimum score thresholds when present. -/
def matchesFilters (f : FilterSettings) (c : CandidateProfile) : Bool :=
  f.skills.all (fun s => c.skills.any (fun cs => containsCI cs s)) &&
  (match f.seniorityLevel with
   | none => true
   | some s => c.seniority == s) &&
  (match f.qualifications with
   | none => true
   | some q => c.qualifications == q) &&
  (match f.fe_score with
   | none => true
   | some t => decide (t ≤ c.fe_score)) &&
  (match f.be_score with
   | none => true
   | some t => decide (t ≤ c.be_score))

/-- Insert a candidate into a list kept in descending creation-time order. -/
def insertByCreated (c : CandidateProfile) :
    List CandidateProfile → List CandidateProfile
  | [] => [c]
  | d :: ds =>
    if d.created_at ≤ c.created_at then c :: d :: ds
    else d :: insertByCreated c ds

/-- Sort candidates by creation time, most recent first. -/
def sortByCreatedDesc : List CandidateProfile → List CandidateProfile
  | [] => []
  | c :: cs => insertByCreated c (sortByCreatedDesc cs)

/-- The fixed page size of the candidate listing. -/
def pageSize : Nat := 10

/-- Modelled from the spec: the backend query view is not among the sources;
spec section 4.4 filters the store conjunctively, orders by creation time
descending, slices the 1-based requested page of 10 records, reports the full
filtered count independent of the page, and answers an invalid page with an
empty sequence and the correct count rather than an error. -/
def query (db : List CandidateProfile) (f : FilterSettings) (page : Int) :
    List CandidateProfile × Nat :=
  let filtered := db.filter (fun c => matchesFilters f c)
  let total := filtered.length
  if page ≤ 0 then ([], total)
  else
    (((sortByCreatedDesc filtered).drop ((page.toNat - 1) * pageSize)).take
      pageSize, total)

/-! ## Field extractor and process endpoint -/

/-- Modelled from the spec: the keyword vocabulary scanned by the rule-based
fallback extractor, which is not among the sources (spec section 4.1). -/
def skillVocabulary : List String :=
  ["React", "Angular", "Vue", "JavaScript", "TypeScript", "HTML", "CSS",
   "Python", "Django", "Node.js", "Java", "SQL", "AWS", "Docker"]

/-- The text of a string up to its first newline. -/
def firstLine (s : String) : String :=
  ⟨s.data.takeWhile (fun c => c ≠ Char.ofNat 10)⟩

/-- Modelled from the spec: the deterministic rule-based fallback extractor,
not among the sources; spec section 4.1 scans the resume text for a fixed
skill vocabulary by case-insensitive substring match and applies keyword
heuristics for seniority and qualification, with defaults Junior and
Bachelors when no signal is found. It always returns a complete record. -/
def ruleBasedExtract (text : String) : CandidateAttributes :=
  { name := firstLine text,
    skills := skillVocabulary.filter (fun kw => containsCI text kw),
    seniority :=
      if containsCI text "principal" then "Principal"
      else if containsCI text "lead" then "Lead"
      else if containsCI text "senior" then "Senior"
      else if containsCI text "mid-level" then "Mid"
      else "Junior",
    qualifications :=
      if containsCI text "phd" then "PhD"
      else if containsCI text "master" then "Masters"
      else if containsCI text "bachelor" then "Bachelors"
      else if containsCI text "diploma" then "Diploma"
      else "Bachelors" }

/-- Modelled from the spec: the field extractor, not among the sources; spec
section 4.1 attempts the primary LLM path and falls back to the rule-based
extractor on any failure (network, timeout, JSON parse), never raising to the
caller. The outcome of the LLM call is passed in explicitly, a parse failure
or network error being an error value. -/
def extract (llm : Except String CandidateAttributes) (text : String) :
    CandidateAttributes :=
  match llm with
  | .ok attrs => attrs
  | .error _ => ruleBasedExtract text

deriving instance DecidableEq for Except

/-- An uploaded file as the endpoint sees it: its MIME type and the outcome
of PDF text extraction on its bytes. -/
structure UploadedFile where
  mime : String
  text : Except String String
deriving DecidableEq

/-- The candidate data object returned by the process endpoint. -/
structure CandidateData where
  name : String
  skills : List String
  fe_score : Nat
  be_score : Nat
  seniority : String
  qualifications : String
deriving DecidableEq

/-- The HTTP responses the process endpoint can produce. -/
inductive HttpResponse where
  | created (data : CandidateData)
  | badRequest (error : String)
  | serverError (error : String)
deriving DecidableEq

/-- Normalize and score extracted attributes into the response data object. -/
def buildCandidateData (raw : CandidateAttributes) : CandidateData :=
  let a := normalize raw
  let sc := score a.skills (normalizeSeniority a.seniority)
  { name := a.name, skills := a.skills, fe_score := sc.1, be_score := sc.2,
    seniority := a.seniority, qualifications := a.qualifications }

/-- A complete, valid candidate data object: canonical enumeration values and
scores within bounds. -/
def validData (d : CandidateData) : Bool :=
  seniorityCanonicals.contains d.seniority &&
  qualificationCanonicals.contains d.qualifications &&
  decide (d.fe_score ≤ 100) && decide (d.be_score ≤ 100)

/-- Modelled from the spec: the process endpoint view is not among the
sources; spec section 6 and the API documentation read the uploaded PDF from
the multipart form field named resume, answer 400 when the file is missing or
its MIME type is not application/pdf, 500 when PDF text extraction fails, and
otherwise extract, normalize, score and answer 201 with the candidate data. -/
def processEndpoint (form : List (String × UploadedFile))
    (llm : Except String CandidateAttributes) : HttpResponse :=
  match form.lookup "resume" with
  | none => .badRequest "No resume file provided"
  | some file =>
    if file.mime ≠ "application/pdf" then .badRequest "File must be a PDF"
    else
      match file.text with
      | .error e => .serverError e
      | .ok text => .created (buildCandidateData (extract llm text))

/-! ## Embedded frontend code -/

/-- Embeds getJobRole from the revised ResumeList component: FullStack when
both scores reach 50, otherwise Backend when the backend score reaches 50,
otherwise Frontend when the frontend score reaches 50, otherwise Other. -/
def getJobRole (feScore beScore : Int) : String :=
  if 50 ≤ feScore ∧ 50 ≤ beScore then "FullStack"
  else if 50 ≤ beScore then "Backend"
  else if 50 ≤ feScore then "Frontend"
  else "Other"

/-- Embeds handleUpload from App.tsx: the browser builds a multipart form
with the selected file appended under the field named file. -/
def handleUploadForm (file : UploadedFile) : List (String × UploadedFile) :=
  [("file", file)]

/-- Embeds the request path used by handleUpload in App.tsx. -/
def handleUploadPath : String := "/process"

/-- Embeds the guard in handleFileSelect in App.tsx: the upload only starts
when the selected file has MIME type application/pdf. -/
def handleFileSelectAccepts (file : UploadedFile) : Bool :=
  file.mime == "application/pdf"

/-! ## Filter and query helper lemmas -/

/-- The descending creation-time ordering on candidates. -/
def DescByCreated (a b : CandidateProfile) : Prop :=
  b.created_at ≤ a.created_at

theorem matchesFilters_iff (f : FilterSettings) (c : CandidateProfile) :
    matchesFilters f c = true ↔
      ((∀ s ∈ f.skills, ∃ cs ∈ c.skills, containsCI cs s = true) ∧
       (∀ s, f.seniorityLevel = some s → c.seniority = s) ∧
       (∀ q, f.qualifications = some q → c.qualifications = q) ∧
       (∀ t, f.fe_score = some t → t ≤ c.fe_score) ∧
       (∀ t, f.be_score = some t → t ≤ c.be_score)) := by
  obtain ⟨sk, sl, ql, fe, be⟩ := f
  cases sl <;> cases ql <;> cases fe <;> cases be <;>
    (simp [matchesFilters, List.all_eq_true, List.any_eq_true]; try tauto)

theorem matchesFilters_noFilters (c : CandidateProfile) :
    matchesFilters noFilters c = true := rfl

theorem filter_noFilters (db : List CandidateProfile) :
    db.filter (fun c => matchesFilters noFilters c) = db := by
  induction db with
  | nil => rfl
  | cons c cs ih => simp [List.filter_cons, matchesFilters_noFilters, ih]

theorem mem_insertByCreated (a c : CandidateProfile)
    (l : List CandidateProfile) :
    a ∈ insertByCreated c l ↔ a = c ∨ a ∈ l := by
  induction l with
  | nil => simp [insertByCreated]
  | cons d ds ih =>
    by_cases h : d.created_at ≤ c.created_at
    · simp [insertByCreated, h]
    · simp [insertByCreated, h, ih]
      tauto

theorem mem_sortByCreatedDesc (a : CandidateProfile)
    (l : List CandidateProfile) :
    a ∈ sortByCreatedDesc l ↔ a ∈ l := by
  induction l with
  | nil => simp [sortByCreatedDesc]
  | cons c cs ih => simp [sortByCreatedDesc, mem_insertByCreated, ih]

theorem length_insertByCreated (c : CandidateProfile)
    (l : List CandidateProfile) :
    (insertByCreated c l).length = l.length + 1 := by
  induction l with
  | nil => rfl
  | cons d ds ih =>
    by_cases h : d.created_at ≤ c.created_at <;>
      simp [insertByCreated, h, ih]

theorem length_sortByCreatedDesc (l : List CandidateProfile) :
    (sortByCreatedDesc l).length = l.length := by
  induction l with
  | nil => rfl
  | cons c cs ih => simp [sortByCreatedDesc, length_insertByCreated, ih]

theorem pairwise_insertByCreated (c : CandidateProfile)
    (l : List CandidateProfile) (h : l.Pairwise DescByCreated) :
    (insertByCreated c l).Pairwise DescByCreated := by
  induction l with
  | nil => simp [insertByCreated, DescByCreated]
  | cons d ds ih =>
    rcases List.pairwise_cons.mp h with ⟨hd, hds⟩
    by_cases hc : d.created_at ≤ c.created_at
    · simp only [insertByCreated, if_pos hc]
      refine List.pairwise_cons.mpr ⟨?_, h⟩
      intro x hx
      rcases List.mem_cons.mp hx with rfl | hx
      · exact hc
      · exact le_trans (hd x hx) hc
    · simp only [insertByCreated, if_neg hc]
      refine List.pairwise_cons.mpr ⟨?_, ih hds⟩
      intro x hx
      rcases (mem_insertByCreated x c ds).mp hx with rfl | hx
      · exact le_of_lt (lt_of_not_le hc)
      · exact hd x hx

theorem pairwise_sortByCreatedDesc (l : List CandidateProfile) :
    (sortByCreatedDesc l).Pairwise DescByCreated := by
  induction l with
  | nil => exact List.Pairwise.nil
  | cons c cs ih => exact pairwise_insertByCreated c _ ih

theorem query_mem_matches (db : List CandidateProfile) (f : FilterSettings)
    (page : Int) (c : CandidateProfile) (h : c ∈ (query db f page).1) :
    matchesFilters f c = true := by
  by_cases hp : page ≤ 0
  · simp [query, hp] at h
  · simp only [query, if_neg hp] at h
    have hsub :
        List.Sublist
          (((sortByCreatedDesc
              (db.filter (fun c => matchesFilters f c))).drop
                ((page.toNat - 1) * pageSize)).take pageSize)
          (sortByCreatedDesc (db.filter (fun c => matchesFilters f c))) :=
      (List.take_sublist _ _).trans (List.drop_sublist _ _)
    have h1 := hsub.mem h
    have h2 := (mem_sortByCreatedDesc c _).mp h1
    exact (List.mem_filter.mp h2).2

theorem seniority_canonical_contains (e : Seniority) :
    seniorityCanonicals.contains e.canonical = true := by
  cases e <;> decide

theorem qualification_canonical_contains (q : Qualification) :
    qualificationCanonicals.contains q.canonical = true := by
  cases q <;> decide

theorem validData_buildCandidateData (raw : CandidateAttributes) :
    validData (buildCandidateData raw) = true := by
  unfold validData buildCandidateData score clamp100
  simp only [normalize, decide_eq_true_eq, Bool.and_eq_true]
  exact ⟨⟨⟨seniority_canonical_contains _, qualification_canonical_contains _⟩,
    Nat.min_le_right _ _⟩, Nat.min_le_right _ _⟩

/-! ## Demonstration fixtures used by the witness theorems -/

/-- A frontend-and-backend candidate, created earlier. -/
def cDemo : CandidateProfile :=
  { id := 1, name := "Ada", skills := ["React", "Python"], fe_score := 30,
    be_score := 30, seniority := "Senior", qualifications := "Bachelors",
    created_at := 5 }

/-- A second candidate, created later. -/
def cDemo2 : CandidateProfile :=
  { id := 2, name := "Bob", skills := ["Java"], fe_score := 5, be_score := 15,
    seniority := "Junior", qualifications := "Masters", created_at := 9 }

/-- A two-candidate store. -/
def dbDemo : List CandidateProfile := [cDemo, cDemo2]

/-- A filter with a skill, a seniority and a frontend threshold constraint. -/
def fDemo : FilterSettings :=
  { skills := ["react"], seniorityLevel := some "Senior",
    qualifications := none, fe_score := some 20, be_score := none }

/-- A filter with only a qualification constraint. -/
def fDemo2 : FilterSettings :=
  { skills := [], seniorityLevel := none, qualifications := some "Bachelors",
    fe_score := none, be_score := none }

/-- A well-formed PDF upload whose text extraction succeeds. -/
def pdfFile : UploadedFile :=
  { mime := "application/pdf", text := Except.ok "Senior React Developer" }

/-- A multipart form carrying the PDF under the documented field name. -/
def formDemo : List (String × UploadedFile) := [("resume", pdfFile)]

/-- A concrete attribute record as the primary extraction path would yield. -/
def someAttrs : CandidateAttributes :=
  { name := "Ada", skills := ["React"], seniority := "Senior",
    qualifications := "Bachelors" }

/-! ## Claim theorems -/

/-- Claim C1: score of the empty skill list with seniority Junior is (5, 5);
score of the list React, Python with seniority Senior is (30, 30); each skill
matching the frontend or backend set adds +10 to the respective score, and
the seniority bonus (Junior +5, Mid +10, Senior +20, Lead/Principal +30) is
added to both scores. -/
theorem score_examples :
    score [] Seniority.junior = (5, 5) ∧
    score ["React", "Python"] Seniority.senior = (30, 30) ∧
    skillPoints frontendSkills ["React", "Python"] = 10 ∧
    skillPoints backendSkills ["React", "Python"] = 10 ∧
    seniorityBonus Seniority.junior = 5 ∧
    seniorityBonus Seniority.mid = 10 ∧
    seniorityBonus Seniority.senior = 20 ∧
    seniorityBonus Seniority.lead = 30 ∧
    seniorityBonus Seniority.principal = 30 := by
  decide

/-- Claim C2: for every skill sequence and every seniority value, the scorer
returns two integers each within 0 to 100 (the lower bound is automatic on
Nat), each being the additive contribution clamped at 100 even when the sum
exceeds 100. -/
theorem score_bounds (skills : List String) (sen : Seniority) :
    (score skills sen).1 ≤ 100 ∧ (score skills sen).2 ≤ 100 ∧
    (score skills sen).1 =
      min (skillPoints frontendSkills skills + seniorityBonus sen) 100 ∧
    (score skills sen).2 =
      min (skillPoints backendSkills skills + seniorityBonus sen) 100 :=
  ⟨Nat.min_le_right _ _, Nat.min_le_right _ _, rfl, rfl⟩

/-- Claim C3: the normalizer is idempotent. -/
theorem normalize_idempotent (x : CandidateAttributes) :
    normalize (normalize x) = normalize x := by
  simp [normalize, normalizeSeniority_canonical, normalizeQualification_canonical]

/-- Claim C4: the query is conjunctive: a candidate appears in the results
only if it satisfies every provided constraint, a score constraint holds
exactly when the stored score reaches the threshold, and with no constraints
every candidate matches and the reported count is the whole store. -/
theorem query_conjunctive (db : List CandidateProfile) (f : FilterSettings)
    (page : Int) (c : CandidateProfile) :
    (c ∈ (query db f page).1 → matchesFilters f c = true) ∧
    (matchesFilters f c = true ↔
      ((∀ s ∈ f.skills, ∃ cs ∈ c.skills, containsCI cs s = true) ∧
       (∀ s, f.seniorityLevel = some s → c.seniority = s) ∧
       (∀ q, f.qualifications = some q → c.qualifications = q) ∧
       (∀ t, f.fe_score = some t → t ≤ c.fe_score) ∧
       (∀ t, f.be_score = some t → t ≤ c.be_score))) ∧
    matchesFilters noFilters c = true ∧
    (query db noFilters page).2 = db.length := by
  refine ⟨query_mem_matches db f page c, matchesFilters_iff f c,
    matchesFilters_noFilters c, ?_⟩
  have h2 : (query db noFilters page).2 =
      (db.filter (fun c => matchesFilters noFilters c)).length := by
    unfold query
    by_cases hp : page ≤ 0 <;> simp [hp]
  rw [h2, filter_noFilters]

/-- Claim C4 witness: a concrete candidate appearing on the first page of a
concrete filtered query satisfies the filters. -/
theorem query_conjunctive_witness : matchesFilters fDemo cDemo = true :=
  (query_conjunctive dbDemo fDemo 1 cDemo).1 (by decide)

/-- Claim C5: pagination has a fixed page size of 10, pages are 1-based
slices of the creation-time-descending ordering, the reported count is the
size of the full filtered set independent of the page, and an invalid page
(nonpositive or beyond the last) yields the empty sequence with the correct
count rather than an error. -/
theorem query_pagination (db : List CandidateProfile) (f : FilterSettings)
    (p : Int) :
    (query db f p).1.length ≤ pageSize ∧
    (query db f p).1.Pairwise DescByCreated ∧
    (query db f p).2 = (db.filter (fun c => matchesFilters f c)).length ∧
    (p ≤ 0 → (query db f p).1 = []) ∧
    (1 ≤ p →
      (db.filter (fun c => matchesFilters f c)).length ≤
        (p.toNat - 1) * pageSize →
      (query db f p).1 = []) ∧
    (query db f 1).1 =
      (sortByCreatedDesc (db.filter (fun c => matchesFilters f c))).take
        pageSize ∧
    pageSize = 10 := by
  refine ⟨?_, ?_, ?_, ?_, ?_, ?_, rfl⟩
  · by_cases hp : p ≤ 0
    · simp [query, hp]
    · simp only [query, if_neg hp]
      rw [List.length_take]
      exact Nat.min_le_left _ _
  · by_cases hp : p ≤ 0
    · simp [query, hp]
    · simp only [query, if_neg hp]
      exact (pairwise_sortByCreatedDesc _).sublist
        ((List.take_sublist _ _).trans (List.drop_sublist _ _))
  · unfold query
    by_cases hp : p ≤ 0 <;> simp [hp]
  · intro hp
    simp [query, hp]
  · intro hp hlen
    have hp0 : ¬ p ≤ 0 := by omega
    simp only [query, if_neg hp0]
    have hdrop :
        (sortByCreatedDesc
            (db.filter (fun c => matchesFilters f c))).drop
          ((p.toNat - 1) * pageSize) = [] := by
      apply List.drop_eq_nil_of_le
      rw [length_sortByCreatedDesc]
      exact hlen
    rw [hdrop]
    rfl
  · have h1 : ¬ (1 : Int) ≤ 0 := by decide
    simp [query, h1]

/-- Claim C5 witness: on a concrete store, page 0 and a page beyond the last
both return the empty sequence while the count stays that of the filtered
set. -/
theorem query_pagination_witness :
    (query dbDemo noFilters 0).1 = [] ∧
    (query dbDemo noFilters 7).1 = [] ∧
    (query dbDemo noFilters 7).2 = 2 :=
  ⟨(query_pagination dbDemo noFilters 0).2.2.2.1 (by decide),
   (query_pagination dbDemo noFilters 7).2.2.2.2.1 (by decide) (by decide),
   by decide⟩

/-- Claim C6: when the primary LLM path fails, the extractor returns the
rule-based fallback value, the process endpoint still answers 201 Created
with the candidate data built from it, and that data is complete and valid. -/
theorem process_llm_fallback (form : List (String × UploadedFile))
    (file : UploadedFile) (text err : String)
    (hf : form.lookup "resume" = some file)
    (hm : file.mime = "application/pdf")
    (ht : file.text = Except.ok text) :
    extract (Except.error err) text = ruleBasedExtract text ∧
    processEndpoint form (Except.error err) =
      HttpResponse.created (buildCandidateData (ruleBasedExtract text)) ∧
    validData (buildCandidateData (ruleBasedExtract text)) = true := by
  refine ⟨rfl, ?_, validData_buildCandidateData _⟩
  simp [processEndpoint, hf, hm, ht, extract]

/-- Claim C6 witness: a concrete resume upload still yields 201 with the
fallback data when the LLM call times out. -/
theorem process_llm_fallback_witness :
    processEndpoint formDemo (Except.error "timeout") =
      HttpResponse.created
        (buildCandidateData (ruleBasedExtract "Senior React Developer")) :=
  (process_llm_fallback formDemo pdfFile "Senior React Developer" "timeout"
    rfl rfl rfl).2.1

/-- Claim C7: the documented endpoint reads the upload from the multipart
field named resume and answers 400 on a missing file or a wrong MIME type —
but handleUpload in App.tsx appends the selected PDF under the field named
file and posts to /process, so the documented endpoint finds no resume field
in the form the frontend sends and answers 400 to it. -/
theorem upload_field_mismatch :
    handleFileSelectAccepts pdfFile = true ∧
    (handleUploadForm pdfFile).lookup "resume" = none ∧
    processEndpoint (handleUploadForm pdfFile) (Except.ok someAttrs) =
      HttpResponse.badRequest "No resume file provided" ∧
    handleUploadPath = "/process" ∧
    processEndpoint [] (Except.ok someAttrs) =
      HttpResponse.badRequest "No resume file provided" ∧
    processEndpoint [("resume", { mime := "text/plain", text := Except.ok "x" })]
        (Except.ok someAttrs) =
      HttpResponse.badRequest "File must be a PDF" := by
  decide

/-- Claim C8: a present seniority or qualification filter is exactly an
equality constraint conjoined with the remaining constraints; making it
absent removes just that constraint. -/
theorem filters_exact_match (f : FilterSettings) (c : CandidateProfile)
    (s q : String) :
    (f.seniorityLevel = some s →
      (matchesFilters f c = true ↔
        (c.seniority = s ∧
         matchesFilters { f with seniorityLevel := none } c = true))) ∧
    (f.qualifications = some q →
      (matchesFilters f c = true ↔
        (c.qualifications = q ∧
         matchesFilters { f with qualifications := none } c = true))) := by
  obtain ⟨sk, sl, ql, fe, be⟩ := f
  constructor
  · rintro rfl
    rw [matchesFilters_iff, matchesFilters_iff]
    simp
    tauto
  · rintro rfl
    rw [matchesFilters_iff, matchesFilters_iff]
    simp
    tauto

/-- Claim C8 witness: on concrete data, a present seniority filter is exactly
the equality constraint conjoined with the rest, and likewise for a present
qualification filter. -/
theorem filters_exact_match_witness :
    (matchesFilters fDemo cDemo = true ↔
      (cDemo.seniority = "Senior" ∧
       matchesFilters { fDemo with seniorityLevel := none } cDemo = true)) ∧
    (matchesFilters fDemo2 cDemo = true ↔
      (cDemo.qualifications = "Bachelors" ∧
       matchesFilters { fDemo2 with qualifications := none } cDemo = true)) :=
  ⟨(filters_exact_match fDemo cDemo "Senior" "Bachelors").1 rfl,
   (filters_exact_match fDemo2 cDemo "Senior" "Bachelors").2 rfl⟩

/-- Claim C9: the normalizer leaves the skills sequence identical to the
input, duplicates and order included. -/
theorem normalize_preserves_skills (x : CandidateAttributes) :
    (normalize x).skills = x.skills := rfl

/-- Claim C10: the UI job-role classifier answers FullStack exactly when both
scores reach 50, Backend exactly when only the backend score does, Frontend
exactly when only the frontend score does, and Other exactly when neither
does. -/
theorem getJobRole_classification (fe be : Int) :
    (getJobRole fe be = "FullStack" ↔ (50 ≤ fe ∧ 50 ≤ be)) ∧
    (getJobRole fe be = "Backend" ↔ (50 ≤ be ∧ fe < 50)) ∧
    (getJobRole fe be = "Frontend" ↔ (50 ≤ fe ∧ be < 50)) ∧
    (getJobRole fe be = "Other" ↔ (fe < 50 ∧ be < 50)) := by
  by_cases hf : 50 ≤ fe <;> by_cases hb : 50 ≤ be
  · simp [getJobRole, hf, hb, not_lt.mpr hf, not_lt.mpr hb]
  · simp [getJobRole, hf, hb, not_le.mp hb, not_lt.mpr hf]
  · simp [getJobRole, hf, hb, not_le.mp hf, not_lt.mpr hb]
  · simp [getJobRole, hf, hb, not_le.mp hf, not_le.mp hb]

/-- Claim C10 witness: the classifier on concrete scores. -/
theorem getJobRole_classification_witness :
    getJobRole 60 70 = "FullStack" ∧ getJobRole 40 70 = "Backend" :=
  ⟨(getJobRole_classification 60 70).1.mpr (by decide),
   ((getJobRole_classification 40 70).2.1).mpr (by decide)⟩

end ResumeApp
